import Mathlib

/-!
Shallow embedding of the empolis-visibility metadata synchronization tool.

The JavaScript source is modelled as pure Lean functions: network and
environment effects (HTTP request outcomes, process environment, the wall
clock) are passed in as explicit parameters, JS exceptions are `Except`
errors, and JS `undefined` / `null` are `Option.none`.  The embedded
functions keep the names of the source functions (`getToken`,
`getFileMetadata`, `editFileMetadata`, `fileSearch`, `processFile`,
`updateCloudMetadata`).
-/

/-- JS strings are modelled as lists of characters. -/
abbrev JStr := List Char

/-- Embedding of `String.prototype.toLowerCase` (character-wise lowering). -/
def jsLower (s : JStr) : JStr := s.map Char.toLower

/-- Whitespace test used by `String.prototype.trim`. -/
def jsWhitespace (c : Char) : Bool := c.isWhitespace

/-- Embedding of `String.prototype.trim`: remove leading and trailing whitespace. -/
def jsTrim (s : JStr) : JStr :=
  ((s.dropWhile jsWhitespace).reverse.dropWhile jsWhitespace).reverse

/-- Truthiness of a possibly absent JS string: `undefined`, `null` and the
empty string are falsy. -/
def truthyStr : Option JStr → Bool
  | some s => !s.isEmpty
  | none => false

/-- Truthiness of a possibly absent JS number: `undefined`, `null` and `0` are falsy. -/
def truthyNum : Option Int → Bool
  | some n => n != 0
  | none => false

/-- JS errors are modelled by their message. -/
abbrev JsError := String

/-- Message of the `TypeError` raised when a property of `undefined` or `null` is read. -/
def TYPE_ERROR : JsError := "TypeError"

/-- A JS object holding document metadata: an association list from property
names to string values.  Property access is `List.lookup`, so an earlier
entry shadows a later one with the same key. -/
abbrev Metadata := List (String × JStr)

/-- Property read `m[k]`; `none` models a missing property (`undefined`). -/
def mdGet (m : Metadata) (k : String) : Option JStr := m.lookup k

/-- Object spread with override, `{ ...m, k: v }`: the result reads as `v`
at `k` and as `m` at every other key. -/
def mdSet (m : Metadata) (k : String) (v : JStr) : Metadata := (k, v) :: m

/-! ## Token manager (`empolis_admin.js`) -/

/-- The module-level `tokenCache` of `empolis_admin.js`. -/
structure TokenCache where
  accessToken : Option JStr
  refreshToken : Option JStr
  accessTokenExpirationTime : Option Int
  refreshTokenExpirationTime : Option Int
deriving DecidableEq

/-- The all-`null` cache the source assigns when clearing token state. -/
def emptyTokenCache : TokenCache := ⟨none, none, none, none⟩

/-- Parsed body of a successful `/oauth2/token` response. -/
structure TokenResponse where
  access_token : JStr
  refresh_token : JStr
  expires_in : Int
deriving DecidableEq

/-- The four `process.env` entries destructured by `getToken`. -/
structure AuthEnv where
  API_USERNAME : Option JStr
  API_PASSWORD : Option JStr
  CLIENT_ID : Option JStr
  CLIENT_SECRET : Option JStr
deriving DecidableEq

/-- Decidable equality for `Except`, needed to evaluate the embedded
functions on concrete inputs. -/
instance exceptDecEq {ε α : Type} [DecidableEq ε] [DecidableEq α] : DecidableEq (Except ε α)
  | .error a, .error b =>
    if h : a = b then .isTrue (by rw [h]) else .isFalse (fun hc => h (Except.error.inj hc))
  | .error _, .ok _ => .isFalse (fun hc => Except.noConfusion hc)
  | .ok _, .error _ => .isFalse (fun hc => Except.noConfusion hc)
  | .ok a, .ok b =>
    if h : a = b then .isTrue (by rw [h]) else .isFalse (fun hc => h (Except.ok.inj hc))

/-- Result of one `getToken` call: the returned value or propagated error,
the token cache it leaves behind, and how many refresh-grant and
password-grant requests it issued. -/
structure GetTokenResult where
  result : Except JsError JStr
  cache : TokenCache
  refreshRequests : Nat
  passwordRequests : Nat
deriving DecidableEq

/-- Guard of the cached-access-token fast path:
`tokenCache.accessToken && tokenCache.accessTokenExpirationTime && currentTime < tokenCache.accessTokenExpirationTime`. -/
def cachedAccessValid (c : TokenCache) (now : Int) : Bool :=
  truthyStr c.accessToken && truthyNum c.accessTokenExpirationTime &&
    decide (now < c.accessTokenExpirationTime.getD 0)

/-- Guard of the refresh-grant path:
`tokenCache.refreshToken && tokenCache.refreshTokenExpirationTime && currentTime < tokenCache.refreshTokenExpirationTime`. -/
def cachedRefreshValid (c : TokenCache) (now : Int) : Bool :=
  truthyStr c.refreshToken && truthyNum c.refreshTokenExpirationTime &&
    decide (now < c.refreshTokenExpirationTime.getD 0)

/-- Check that all four destructured environment variables are truthy. -/
def envComplete (env : AuthEnv) : Bool :=
  truthyStr env.API_USERNAME && truthyStr env.API_PASSWORD &&
    truthyStr env.CLIENT_ID && truthyStr env.CLIENT_SECRET

/-- Error thrown by `getToken` when an environment variable is missing. -/
def MISSING_ENV_ERROR : JsError := "Missing required environment variables"

/-- Cache contents the source writes after any successful token response at
time `now`: all four fields are assigned, the access expiry being
`currentTime + (tokenResponse.expires_in - 60) * 1000` and the refresh
expiry `currentTime + 24 * 60 * 60 * 1000`. -/
def cacheFromResponse (now : Int) (tr : TokenResponse) : TokenCache :=
  ⟨some tr.access_token, some tr.refresh_token,
   some (now + (tr.expires_in - 60) * 1000),
   some (now + 24 * 60 * 60 * 1000)⟩

/-- Tail of `getToken` after the cached-token paths: the environment check
followed by the password-grant request.  `cache` is the cache state on
entry (already cleared when a refresh attempt just failed) and
`refreshReqs` the number of refresh requests already issued. -/
def getTokenFullIssue (cache : TokenCache) (now : Int) (env : AuthEnv)
    (passwordResult : Except JsError TokenResponse) (refreshReqs : Nat) : GetTokenResult :=
  if !envComplete env then
    ⟨.error MISSING_ENV_ERROR, cache, refreshReqs, 0⟩
  else
    match passwordResult with
    | .ok tr => ⟨.ok tr.access_token, cacheFromResponse now tr, refreshReqs, 1⟩
    | .error e => ⟨.error e, emptyTokenCache, refreshReqs, 1⟩

/-- Embedding of `getToken` of `empolis_admin.js`.  The outcomes of the two
possible network round trips (refresh grant, password grant) are passed in
as parameters; the function decides which of them is actually issued. -/
def getToken (cache : TokenCache) (now : Int) (env : AuthEnv)
    (refreshResult passwordResult : Except JsError TokenResponse) : GetTokenResult :=
  if cachedAccessValid cache now then
    ⟨.ok (cache.accessToken.getD []), cache, 0, 0⟩
  else if cachedRefreshValid cache now then
    match refreshResult with
    | .ok tr => ⟨.ok tr.access_token, cacheFromResponse now tr, 1, 0⟩
    | .error _ =>
      -- catch: clear the token cache, then fall through to the full issue
      getTokenFullIssue emptyTokenCache now env passwordResult 1
  else
    getTokenFullIssue cache now env passwordResult 0

/-! ## API gateway (`empolis_ops.js`, `empolis_search.js`) -/

/-- Error thrown by `editFileMetadata` when `FilePath` is missing.  The
source text of the message additionally quotes the word FilePath. -/
def FILE_PATH_ERROR : JsError := "Metadata must contain FilePath"

/-- Count of the side effects `editFileMetadata` performs: token fetches
and HTTP POST requests. -/
structure EditTrace where
  tokenFetches : Nat
  httpPosts : Nat
deriving DecidableEq

/-- The guard `newMetadata?.FilePath?.length` of `editFileMetadata`:
truthy iff the argument object exists and carries a non-empty `FilePath`. -/
def filePathPresent : Option Metadata → Bool
  | some m => truthyStr (mdGet m "FilePath")
  | none => false

/-- Embedding of `editFileMetadata` of `empolis_ops.js`.  `tokenResult` is
the outcome of `getToken`, `postResult` the outcome of the POST request
(error value = failing HTTP status).  Returns the JS return value (the
status code, or `undefined` when the caught POST failed) together with the
effect trace.  The `FilePath` guard throws before the token fetch and the
request; a `getToken` failure propagates (it is outside the try block). -/
def editFileMetadata (newMetadata : Option Metadata) (tokenResult : Except JsError JStr)
    (postResult : Except Nat Nat) : Except JsError (Option Nat) × EditTrace :=
  if !filePathPresent newMetadata then
    (.error FILE_PATH_ERROR, ⟨0, 0⟩)
  else
    match tokenResult with
    | .error e => (.error e, ⟨1, 0⟩)
    | .ok _ =>
      match postResult with
      | .ok status => (.ok (some status), ⟨1, 1⟩)
      | .error _ => (.ok none, ⟨1, 1⟩)

/-- Embedding of `getFileMetadata` of `empolis_ops.js`.  `store` maps a
file path to the parsed body of a successful GET or to the failing HTTP
status.  Every failure (token fetch included, since the whole body is
inside the try block) is caught, logged and turned into an `undefined`
return value: the function never propagates an error. -/
def getFileMetadata (tokenResult : Except JsError JStr)
    (store : JStr → Except Nat Metadata) (path : JStr) : Except JsError (Option Metadata) :=
  match tokenResult with
  | .error _ => .ok none
  | .ok _ =>
    match store path with
    | .ok m => .ok (some m)
    | .error _ => .ok none

/-- One record of an index search response; `resultAttributes` requests
`DownloadLink`, which `fileSearch` reads off the first record. -/
structure SearchRecord where
  DownloadLink : JStr
deriving DecidableEq

/-- Parsed body of an index search response. -/
structure SearchResponse where
  records : Option (List SearchRecord)
deriving DecidableEq

/-- Embedding of `fileSearch` of `empolis_search.js`.  `searchResponse` is
the return value of `indexSearch` (`none` when that call failed and was
swallowed into `undefined`).  Returns the JS return value (the metadata of
the first hit, or `null` when there are no results) together with the
number of `getFileMetadata` store fetches performed. -/
def fileSearch (searchResponse : Option SearchResponse) (tokenResult : Except JsError JStr)
    (store : JStr → Except Nat Metadata) : Except JsError (Option Metadata) × Nat :=
  match searchResponse with
  | some resp =>
    match resp.records with
    | some (first :: _) => (getFileMetadata tokenResult store first.DownloadLink, 1)
    | some [] => (.ok none, 0)
    | none => (.ok none, 0)
  | none => (.ok none, 0)

/-! ## Reconciliation engine (`processFile` of `empolis_ops.js`) -/

/-- One entry of the local file index. -/
structure FileRecord where
  filename : JStr
  title : JStr
  breadcrumbs : Option (List JStr)
deriving DecidableEq

/-- The `newKeywords` computation of `processFile`: starting from the empty
string, append each breadcrumb followed by a semicolon and a space, then
trim the result; the empty string when `breadcrumbs` is absent. -/
def newKeywordsOf : Option (List JStr) → JStr
  | none => []
  | some crumbs => jsTrim (crumbs.foldl (fun acc k => acc ++ k ++ "; ".data) [])

/-- Observable outcome of a `processFile` run that did not throw. -/
inductive Outcome where
  | skippedCorrect
  | skippedNoKeywords
  | editAccepted (newMetadata : Metadata)
  | editRejected (newMetadata : Metadata)
deriving DecidableEq

/-- The metadata object `processFile` builds before calling
`editFileMetadata`: a spread copy of the fetched metadata with `Title`
overridden, and `Keywords_txt` overridden only when the computed keywords
string is non-empty. -/
def buildNewMetadata (rec : FileRecord) (fileMetadata : Metadata) : Metadata :=
  let newKeywords := newKeywordsOf rec.breadcrumbs
  let base := mdSet fileMetadata "Title" rec.title
  if newKeywords.isEmpty then base else mdSet base "Keywords_txt" newKeywords

/-- The edit tail of `processFile`: build the new metadata and call
`editFileMetadata`; a 202 response counts as success. -/
def processFileEdit (rec : FileRecord) (fileMetadata : Metadata)
    (tokenResult : Except JsError JStr) (postResult : Except Nat Nat) :
    Except JsError Outcome :=
  let nm := buildNewMetadata rec fileMetadata
  match editFileMetadata (some nm) tokenResult postResult with
  | (.error e, _) => .error e
  | (.ok r, _) => if r = some 202 then .ok (.editAccepted nm) else .ok (.editRejected nm)

/-- Embedding of `processFile` of `empolis_ops.js`.  `dataObject` is the
destructured argument (possibly `undefined`), `searchResult` the value
returned by the `fileSearch` call.  Reading `dataObject.filename` or
`fileMetadata.Title` of `undefined` / `null` throws a `TypeError`. -/
def processFile (dataObject : Option FileRecord) (searchResult : Option Metadata)
    (tokenResult : Except JsError JStr) (postResult : Except Nat Nat) :
    Except JsError Outcome :=
  match dataObject with
  | none => .error TYPE_ERROR
  | some rec =>
    match searchResult with
    | none => .error TYPE_ERROR
    | some fileMetadata =>
      let newKeywords := newKeywordsOf rec.breadcrumbs
      if truthyStr (mdGet fileMetadata "Title") && !rec.title.isEmpty then
        if jsLower ((mdGet fileMetadata "Title").getD []) = jsLower rec.title then
          if truthyStr (mdGet fileMetadata "Keywords_txt") then
            if jsLower ((mdGet fileMetadata "Keywords_txt").getD []) = jsLower newKeywords then
              .ok .skippedCorrect
            else
              processFileEdit rec fileMetadata tokenResult postResult
          else if newKeywords.isEmpty then
            .ok .skippedNoKeywords
          else
            processFileEdit rec fileMetadata tokenResult postResult
        else
          processFileEdit rec fileMetadata tokenResult postResult
      else
        processFileEdit rec fileMetadata tokenResult postResult

/-! ## Batch orchestrator (`updateCloudMetadata` of `empolis_ops.js`) -/

/-- Per-filename effect environment for a batch run: the value the
`fileSearch` call would return for a record, the `getToken` outcome, and
the edit POST outcome. -/
structure OpsEnv where
  searchResult : JStr → Option Metadata
  tokenResult : Except JsError JStr
  postResult : JStr → Except Nat Nat

/-- Destructuring a named parameter out of a JS argument object whose
properties hold (possibly undefined) file records: an absent property and
an explicitly undefined one both read as `undefined`. -/
def jsArgLookup (args : List (String × Option FileRecord)) (k : String) : Option FileRecord :=
  (args.lookup k).getD none

/-- The `index.findIndex(...)` / `index[fileIndex]` pair of the loop body:
the first index entry with the given filename, `undefined` when absent. -/
def indexLookup (index : List FileRecord) (file : JStr) : Option FileRecord :=
  index.find? (fun r => r.filename == file)

/-- Loop of `updateCloudMetadata`.  Each iteration builds the argument
object `{ fileData }` and calls `processFile`, which destructures the
property `dataObject` from it; an error thrown by `processFile` propagates
(there is no try/catch around the loop).  Returns the JS return value
(`null` on completion) and the number of `processFile` calls made. -/
def updateCloudGo (env : OpsEnv) (index : List FileRecord) :
    List JStr → Nat → Except JsError (Option Unit) × Nat
  | [], n => (.ok none, n)
  | file :: rest, n =>
    let fileData := indexLookup index file
    let dataObject := jsArgLookup [("fileData", fileData)] "dataObject"
    let searchRes := match dataObject with
                     | some r => env.searchResult r.filename
                     | none => none
    match processFile dataObject searchRes env.tokenResult (env.postResult file) with
    | .error e => (.error e, n + 1)
    | .ok _ => updateCloudGo env index rest (n + 1)

/-- Embedding of `updateCloudMetadata` of `empolis_ops.js`. -/
def updateCloudMetadata (env : OpsEnv) (index : List FileRecord) (fileList : List JStr) :
    Except JsError (Option Unit) × Nat :=
  updateCloudGo env index fileList 0

/-! ## Spec-side definitions -/

/-- Modelled from the spec words: the breadcrumbs joined with a semicolon
and a space as separators (no trailing separator). -/
def joinSemicolon : List JStr → JStr
  | [] => []
  | [s] => s
  | s :: rest :: more => s ++ "; ".data ++ joinSemicolon (rest :: more)

/-! ## Concrete fixtures -/

/-- A concrete bearer token value. -/
def tokA : JStr := "tok".data

/-- The record of the spec scenario:
`{filename: "a.html", title: "Intro", breadcrumbs: ["Home","Intro"]}`. -/
def recA : FileRecord := ⟨"a.html".data, "Intro".data, some ["Home".data, "Intro".data]⟩

/-- The remote metadata of the spec scenario:
`{FilePath: "/a.html", Title: "intro", Keywords_txt: "Home; Intro"}`. -/
def remoteA : Metadata :=
  [("FilePath", "/a.html".data), ("Title", "intro".data), ("Keywords_txt", "Home; Intro".data)]

/-- The scenario metadata with the keywords value the code actually
computes (trailing semicolon included). -/
def remoteFixed : Metadata :=
  [("FilePath", "/a.html".data), ("Title", "intro".data), ("Keywords_txt", "Home; Intro;".data)]

/-- A store in which no path resolves: every GET fails with a 404. -/
def noStore : JStr → Except Nat Metadata := fun _ => .error 404

/-- A search response with zero records. -/
def zeroHits : SearchResponse := ⟨some []⟩

/-- Complete credential environment. -/
def envA : AuthEnv := ⟨some "u".data, some "p".data, some "cid".data, some "sec".data⟩

/-- Environment with all four credentials missing. -/
def noEnv : AuthEnv := ⟨none, none, none, none⟩

/-- A concrete successful token response. -/
def trA : TokenResponse := ⟨"acc1".data, "ref1".data, 3600⟩

/-- A second concrete successful token response. -/
def trB : TokenResponse := ⟨"acc2".data, "ref2".data, 1800⟩

/-- A cache whose access token is still valid at times below 1000000. -/
def cacheFresh : TokenCache := ⟨some "acc0".data, some "ref0".data, some 1000000, some 2000000⟩

/-- A cache holding an expired access token and no refresh token. -/
def staleCache : TokenCache := ⟨some "old".data, none, some 1, none⟩

/-- A cache holding only a still-valid refresh token. -/
def cacheRefOnly : TokenCache := ⟨none, some "ref0".data, none, some 2000000⟩

/-- A metadata object carrying only a FilePath, used as concrete input. -/
def mdFP : Metadata := [("FilePath", "/a.html".data)]

/-- The metadata object `processFile` builds and sends in the C1 scenario. -/
def newMetaA : Metadata :=
  ("Keywords_txt", "Home; Intro;".data) :: ("Title", "Intro".data) :: remoteA

/-- A benign batch environment: every search hits, the token is available,
every POST is accepted. -/
def envOk : OpsEnv := ⟨fun _ => some remoteA, .ok tokA, fun _ => .ok 202⟩

/-- Five filenames for the batch scenario. -/
def fiveFiles : List JStr :=
  ["f1.html".data, "f2.html".data, "f3.html".data, "f4.html".data, "f5.html".data]

/-- An index holding a record for each of the five filenames. -/
def fiveIndex : List FileRecord := fiveFiles.map (fun f => ⟨f, "T".data, none⟩)

/-! ## Helper lemmas -/

lemma truthyStr_some_of_ne {s : JStr} (h : s ≠ []) : truthyStr (some s) = true := by
  cases s with
  | nil => exact absurd rfl h
  | cons a l => rfl

lemma truthyNum_some_of_ne {n : Int} (h : n ≠ 0) : truthyNum (some n) = true := by
  simp [truthyNum, h]

lemma cachedAccessValid_of (cache : TokenCache) (now : Int) (t : JStr) (e : Int)
    (hTok : cache.accessToken = some t) (hne : t ≠ [])
    (hExp : cache.accessTokenExpirationTime = some e) (hez : e ≠ 0) (hlt : now < e) :
    cachedAccessValid cache now = true := by
  simp [cachedAccessValid, hTok, hExp, truthyStr_some_of_ne hne,
    truthyNum_some_of_ne hez, hlt]

lemma mdGet_set_same (m : Metadata) (k : String) (v : JStr) :
    mdGet (mdSet m k v) k = some v := by
  simp [mdGet, mdSet, List.lookup]

lemma mdGet_set_other (m : Metadata) (k k2 : String) (v : JStr) (h : k2 ≠ k) :
    mdGet (mdSet m k v) k2 = mdGet m k2 := by
  have hb : (k2 == k) = false := beq_eq_false_iff_ne.mpr h
  simp [mdGet, mdSet, List.lookup, hb]

lemma foldl_keywords_append (l : List JStr) (acc : JStr) :
    l.foldl (fun a k => a ++ k ++ "; ".data) acc = acc ++ (l.map (· ++ "; ".data)).flatten := by
  induction l generalizing acc with
  | nil => simp
  | cons s rest ih =>
    rw [List.foldl_cons, ih]
    simp [List.append_assoc]

lemma mapFlatten_eq_joinSemicolon (l : List JStr) (h : l ≠ []) :
    (l.map (· ++ "; ".data)).flatten = joinSemicolon l ++ "; ".data := by
  induction l with
  | nil => exact absurd rfl h
  | cons s rest ih =>
    cases rest with
    | nil => simp [joinSemicolon]
    | cons r more =>
      rw [List.map_cons, List.flatten_cons, ih (by simp)]
      simp only [joinSemicolon]
      simp [List.append_assoc]

lemma length_dropWhile_le_chars (p : Char → Bool) (l : JStr) :
    (l.dropWhile p).length ≤ l.length := by
  induction l with
  | nil => simp
  | cons c cs ih =>
    rw [List.dropWhile_cons]
    split
    · exact Nat.le_succ_of_le ih
    · simp

lemma dropWhile_append_of_no_lead (y z : JStr) (hy : y.dropWhile jsWhitespace = y)
    (hz : z.dropWhile jsWhitespace = z) : (y ++ z).dropWhile jsWhitespace = y ++ z := by
  cases y with
  | nil => simpa using hz
  | cons c ys =>
    have hc : jsWhitespace c = false := by
      cases hw : jsWhitespace c with
      | false => rfl
      | true =>
        rw [List.dropWhile_cons, hw] at hy
        simp only [if_true] at hy
        have hlen : (ys.dropWhile jsWhitespace).length ≤ ys.length :=
          length_dropWhile_le_chars jsWhitespace ys
        rw [hy] at hlen
        simp at hlen
    rw [List.cons_append, List.dropWhile_cons, hc]
    simp

lemma jsTrim_sep_tail (y : JStr) (hy : y.dropWhile jsWhitespace = y) :
    jsTrim (y ++ "; ".data) = y ++ [';'] := by
  have hz : (([';', ' '] : JStr).dropWhile jsWhitespace) = [';', ' '] := by decide
  have hsep : "; ".data = ([';', ' '] : JStr) := rfl
  unfold jsTrim
  rw [hsep, dropWhile_append_of_no_lead y [';', ' '] hy hz]
  have hrev : (y ++ [';', ' ']).reverse = ' ' :: ';' :: y.reverse := by simp
  rw [hrev]
  have h1 : (' ' :: ';' :: y.reverse).dropWhile jsWhitespace = ';' :: y.reverse := by
    rw [List.dropWhile_cons, List.dropWhile_cons]
    simp [show jsWhitespace ' ' = true from by decide,
      show jsWhitespace ';' = false from by decide]
  rw [h1]
  simp

lemma newKeywordsOf_join (l : List JStr) (h : l ≠ [])
    (hclean : (joinSemicolon l).dropWhile jsWhitespace = joinSemicolon l) :
    newKeywordsOf (some l) = joinSemicolon l ++ [';'] := by
  show jsTrim (l.foldl (fun acc k => acc ++ k ++ "; ".data) []) = joinSemicolon l ++ [';']
  rw [foldl_keywords_append, List.nil_append, mapFlatten_eq_joinSemicolon l h,
    jsTrim_sep_tail _ hclean]

/-! ## Claim theorems -/

/-- C4: when the search step locates zero matching remote documents,
`fileSearch` returns `null` without attempting any metadata fetch (fetch
count 0); but `processFile`, instead of producing the not-found skip the
spec describes, dereferences the `null` result and throws a `TypeError`. -/
theorem fileSearch_zero_results_processFile_crashes :
    fileSearch (some zeroHits) (.ok tokA) noStore = (.ok none, 0) ∧
    processFile (some recA) none (.ok tokA) (.ok 202) = .error TYPE_ERROR :=
  ⟨rfl, rfl⟩

/-- C7: `editFileMetadata` throws the `FilePath` validation error before
fetching a token or issuing any HTTP request whenever the metadata lacks a
non-empty `FilePath`; with `FilePath` present it returns the status code of
the accepted request; and an HTTP POST is only ever issued when `FilePath`
is present. -/
theorem editFileMetadata_requires_FilePath (m : Option Metadata)
    (tok : Except JsError JStr) (post : Except Nat Nat) :
    (filePathPresent m = false →
      editFileMetadata m tok post = (.error FILE_PATH_ERROR, ⟨0, 0⟩)) ∧
    (∀ t s, filePathPresent m = true → tok = .ok t → post = .ok s →
      editFileMetadata m tok post = (.ok (some s), ⟨1, 1⟩)) ∧
    ((editFileMetadata m tok post).2.httpPosts > 0 → filePathPresent m = true) := by
  unfold editFileMetadata
  cases hfp : filePathPresent m <;> cases tok <;> cases post <;> simp [hfp]

/-- Witness for C7 at concrete inputs. -/
theorem editFileMetadata_requires_FilePath_witness :
    editFileMetadata (some mdFP) (.ok tokA) (.ok 202) = (.ok (some 202), ⟨1, 1⟩) :=
  (editFileMetadata_requires_FilePath (some mdFP) (.ok tokA) (.ok 202)).2.1 tokA 202
    (by decide) rfl rfl

/-- C8 counterexample: on a store path that does not resolve (every GET
fails with 404), `getFileMetadata` does not fail with a NotFound error — it
catches the error, logs it, and returns `undefined`. -/
theorem getFileMetadata_returns_undefined_counterexample :
    getFileMetadata (.ok tokA) noStore "missing.html".data = .ok none ∧
    ∀ e : JsError, getFileMetadata (.ok tokA) noStore "missing.html".data ≠ .error e := by
  refine ⟨rfl, fun e h => ?_⟩
  rw [show getFileMetadata (.ok tokA) noStore "missing.html".data = .ok none from rfl] at h
  exact Except.noConfusion h

/-- C8 amended: `getFileMetadata` never propagates a failure: when the path
does not resolve the HTTP error is caught and the function returns
`undefined`; when the path resolves (and a token was obtained) it returns
the parsed metadata; a token failure is likewise swallowed into
`undefined`. -/
theorem getFileMetadata_never_raises (tok : Except JsError JStr)
    (store : JStr → Except Nat Metadata) (path : JStr) :
    (∀ s, store path = .error s → getFileMetadata tok store path = .ok none) ∧
    (∀ t m, tok = .ok t → store path = .ok m → getFileMetadata tok store path = .ok (some m)) ∧
    (∀ e, tok = .error e → getFileMetadata tok store path = .ok none) := by
  unfold getFileMetadata
  cases tok <;> cases hs : store path <;> simp [hs]

/-- Witness for C8 at concrete inputs. -/
theorem getFileMetadata_never_raises_witness :
    getFileMetadata (.ok tokA) noStore "a.html".data = .ok none :=
  (getFileMetadata_never_raises (.ok tokA) noStore "a.html".data).1 404 rfl

/-- C5: while the cached access token is truthy and the call time is
strictly before the stored expiry, `getToken` returns the cached token,
leaves the cache untouched and issues no refresh or password request; a
repeated call inside the window behaves identically; and a successful full
issue records the expiry as issue time plus `(expires_in - 60) * 1000`
milliseconds. -/
theorem getToken_cached_token_reuse (cache : TokenCache) (now now2 : Int) (env env2 : AuthEnv)
    (rr pr rr2 pr2 : Except JsError TokenResponse) (t : JStr) (e : Int)
    (hTok : cache.accessToken = some t) (hne : t ≠ [])
    (hExp : cache.accessTokenExpirationTime = some e) (hez : e ≠ 0)
    (hlt : now < e) (hlt2 : now2 < e) :
    getToken cache now env rr pr = ⟨.ok t, cache, 0, 0⟩ ∧
    getToken (getToken cache now env rr pr).cache now2 env2 rr2 pr2 = ⟨.ok t, cache, 0, 0⟩ ∧
    (∀ (now3 : Int) (env3 : AuthEnv) (rr3 : Except JsError TokenResponse) (tr : TokenResponse),
      envComplete env3 = true →
      (getToken emptyTokenCache now3 env3 rr3 (.ok tr)).cache.accessTokenExpirationTime =
        some (now3 + (tr.expires_in - 60) * 1000)) := by
  have hv : cachedAccessValid cache now = true :=
    cachedAccessValid_of cache now t e hTok hne hExp hez hlt
  have hv2 : cachedAccessValid cache now2 = true :=
    cachedAccessValid_of cache now2 t e hTok hne hExp hez hlt2
  have h1 : getToken cache now env rr pr = ⟨.ok t, cache, 0, 0⟩ := by
    simp [getToken, hv, hTok]
  refine ⟨h1, ?_, ?_⟩
  · rw [h1]
    simp [getToken, hv2, hTok]
  · intro now3 env3 rr3 tr henv
    simp [getToken, cachedAccessValid, cachedRefreshValid, emptyTokenCache, truthyStr,
      getTokenFullIssue, henv, cacheFromResponse]

/-- Witness for C5 at concrete inputs. -/
theorem getToken_cached_token_reuse_witness :
    getToken cacheFresh 5 envA (.error "x") (.error "y") = ⟨.ok "acc0".data, cacheFresh, 0, 0⟩ :=
  (getToken_cached_token_reuse cacheFresh 5 6 envA envA (.error "x") (.error "y")
    (.error "x") (.error "y") "acc0".data 1000000 rfl (by decide) rfl (by decide)
    (by decide) (by decide)).1

/-- C6: with no valid cached access token and a valid cached refresh token,
a successful refresh replaces all four cache fields together; a failed
refresh clears the whole cache and falls through, within the same call, to
the password-grant full reissue (issuing it whenever the credentials are
present), retaining no old field value on any failing path. -/
theorem getToken_refresh_failure_falls_through (cache : TokenCache) (now : Int) (env : AuthEnv)
    (e : JsError) (pr : Except JsError TokenResponse) (tr : TokenResponse)
    (hnc : cachedAccessValid cache now = false)
    (hrv : cachedRefreshValid cache now = true) :
    getToken cache now env (.ok tr) pr = ⟨.ok tr.access_token, cacheFromResponse now tr, 1, 0⟩ ∧
    (envComplete env = false →
      getToken cache now env (.error e) pr = ⟨.error MISSING_ENV_ERROR, emptyTokenCache, 1, 0⟩) ∧
    (∀ tr2, pr = .ok tr2 → envComplete env = true →
      getToken cache now env (.error e) pr =
        ⟨.ok tr2.access_token, cacheFromResponse now tr2, 1, 1⟩) ∧
    (∀ e2, pr = .error e2 → envComplete env = true →
      getToken cache now env (.error e) pr = ⟨.error e2, emptyTokenCache, 1, 1⟩) := by
  have h1 : getToken cache now env (.ok tr) pr =
      ⟨.ok tr.access_token, cacheFromResponse now tr, 1, 0⟩ := by
    simp [getToken, hnc, hrv]
  have h2 : getToken cache now env (.error e) pr =
      getTokenFullIssue emptyTokenCache now env pr 1 := by
    simp [getToken, hnc, hrv]
  refine ⟨h1, fun henv => ?_, fun tr2 hpr henv => ?_, fun e2 hpr henv => ?_⟩
  · rw [h2]; simp [getTokenFullIssue, henv]
  · rw [h2]; simp [getTokenFullIssue, henv, hpr]
  · rw [h2]; simp [getTokenFullIssue, henv, hpr]

/-- Witness for C6 at concrete inputs. -/
theorem getToken_refresh_failure_falls_through_witness :
    getToken cacheRefOnly 5 envA (.error "refresh failed") (.ok trB) =
      ⟨.ok trB.access_token, cacheFromResponse 5 trB, 1, 1⟩ :=
  (getToken_refresh_failure_falls_through cacheRefOnly 5 envA "refresh failed" (.ok trB) trA
    (by decide) (by decide)).2.2.1 trB rfl (by decide)

/-- C3 counterexample: a call that fails because the credentials are
missing from the environment does not clear the token cache — the stale
access token of the expired cache is still observable afterwards. -/
theorem getToken_missing_env_stale_counterexample :
    (getToken staleCache 5 noEnv (.error "x") (.error "y")).result =
      .error MISSING_ENV_ERROR ∧
    (getToken staleCache 5 noEnv (.error "x") (.error "y")).cache = staleCache ∧
    staleCache.accessToken ≠ none := by decide

/-- C3 amended: every failing `getToken` call leaves the cache fully
cleared, except the missing-credentials throw reached without a preceding
refresh attempt, which leaves the previous token state untouched. -/
theorem getToken_error_cache_disposition (cache : TokenCache) (now : Int) (env : AuthEnv)
    (rr pr : Except JsError TokenResponse) (e : JsError)
    (h : (getToken cache now env rr pr).result = .error e) :
    (getToken cache now env rr pr).cache = emptyTokenCache ∨
      (e = MISSING_ENV_ERROR ∧ (getToken cache now env rr pr).cache = cache ∧
        (getToken cache now env rr pr).refreshRequests = 0) := by
  cases h1 : cachedAccessValid cache now with
  | true => simp [getToken, h1] at h
  | false =>
    cases h2 : cachedRefreshValid cache now with
    | true =>
      cases rr with
      | ok tr => simp [getToken, h1, h2] at h
      | error er =>
        have hg : getToken cache now env (.error er) pr =
            getTokenFullIssue emptyTokenCache now env pr 1 := by
          simp [getToken, h1, h2]
        rw [hg] at h ⊢
        left
        unfold getTokenFullIssue at h ⊢
        cases henv : envComplete env with
        | false => simp [henv]
        | true =>
          cases pr with
          | ok tr2 => simp [henv] at h
          | error e2 => simp [henv]
    | false =>
      have hg : getToken cache now env rr pr = getTokenFullIssue cache now env pr 0 := by
        simp [getToken, h1, h2]
      rw [hg] at h ⊢
      unfold getTokenFullIssue at h ⊢
      cases henv : envComplete env with
      | false =>
        right
        simp [henv] at h ⊢
        exact h.symm
      | true =>
        cases pr with
        | ok tr2 => simp [henv] at h
        | error e2 =>
          left
          simp [henv]

/-- Witness for C3 at a concrete failing input. -/
theorem getToken_error_cache_disposition_witness :
    (getToken staleCache 5 noEnv (.error "x") (.error "y")).cache = emptyTokenCache ∨
      (MISSING_ENV_ERROR = MISSING_ENV_ERROR ∧
        (getToken staleCache 5 noEnv (.error "x") (.error "y")).cache = staleCache ∧
        (getToken staleCache 5 noEnv (.error "x") (.error "y")).refreshRequests = 0) :=
  getToken_error_cache_disposition staleCache 5 noEnv (.error "x") (.error "y")
    MISSING_ENV_ERROR (by decide)

/-- C1 counterexample: the desired keywords string computed for the
scenario record is NOT the breadcrumbs joined with a semicolon-space
separator — it carries a trailing semicolon — and on the scenario remote
metadata `{FilePath: "/a.html", Title: "intro", Keywords_txt: "Home; Intro"}`
the keywords comparison therefore fails and `processFile` issues a write
instead of returning the already-correct skip. -/
theorem processFile_scenario_writes_counterexample :
    newKeywordsOf recA.breadcrumbs ≠ joinSemicolon ["Home".data, "Intro".data] ∧
    newKeywordsOf recA.breadcrumbs = "Home; Intro;".data ∧
    processFile (some recA) (some remoteA) (.ok tokA) (.ok 202) =
      .ok (.editAccepted newMetaA) := by decide

/-- C1 amended: the desired keywords string is each breadcrumb followed by
a semicolon and a space, concatenated and trimmed — that is, whenever the
joined breadcrumbs carry no leading whitespace, the join with
semicolon-space separators followed by a trailing semicolon (empty when
breadcrumbs is absent); with remote keywords in exactly this form
(`"Home; Intro;"`) the scenario is a case-insensitive match on title and
keywords and `processFile` returns the already-correct skip without a
write. -/
theorem newKeywords_trailing_semicolon :
    (∀ l : List JStr, l ≠ [] →
      (joinSemicolon l).dropWhile jsWhitespace = joinSemicolon l →
      newKeywordsOf (some l) = joinSemicolon l ++ [';']) ∧
    newKeywordsOf none = [] ∧
    processFile (some recA) (some remoteFixed) (.ok tokA) (.ok 202) = .ok .skippedCorrect :=
  ⟨fun l h hclean => newKeywordsOf_join l h hclean, rfl, by decide⟩

/-- Witness for C1 at the scenario breadcrumbs. -/
theorem newKeywords_trailing_semicolon_witness :
    newKeywordsOf (some ["Home".data, "Intro".data]) =
      joinSemicolon ["Home".data, "Intro".data] ++ [';'] :=
  newKeywords_trailing_semicolon.1 ["Home".data, "Intro".data] (by decide) (by decide)

lemma processFileEdit_metadata (rec : FileRecord) (md : Metadata) (tok : Except JsError JStr)
    (post : Except Nat Nat) (nm : Metadata)
    (h : processFileEdit rec md tok post = .ok (.editAccepted nm) ∨
         processFileEdit rec md tok post = .ok (.editRejected nm)) :
    nm = buildNewMetadata rec md := by
  simp only [processFileEdit] at h
  rcases hres : editFileMetadata (some (buildNewMetadata rec md)) tok post with ⟨res, trace⟩
  rw [hres] at h
  rcases res with e | r
  · rcases h with h | h <;> simp at h
  · rcases h with h | h <;> simp only [] at h <;> split at h <;> simp_all

lemma processFile_cases (rec : FileRecord) (md : Metadata) (tok : Except JsError JStr)
    (post : Except Nat Nat) :
    processFile (some rec) (some md) tok post = .ok .skippedCorrect ∨
    processFile (some rec) (some md) tok post = .ok .skippedNoKeywords ∨
    processFile (some rec) (some md) tok post = processFileEdit rec md tok post := by
  simp only [processFile]
  split
  · split
    · split
      · split
        · left; rfl
        · right; right; rfl
      · split
        · right; left; rfl
        · right; right; rfl
    · right; right; rfl
  · right; right; rfl

/-- C9: the metadata sent to `editFileMetadata` is a shallow copy of the
fetched metadata in which `Title` is replaced by the record title,
`Keywords_txt` is set to the computed keywords exactly when that string is
non-empty (an existing value is never overwritten with an empty one), and
every other key keeps its fetched value; and every edit outcome of
`processFile` carries exactly this object. -/
theorem buildNewMetadata_frame (rec : FileRecord) (md : Metadata) :
    mdGet (buildNewMetadata rec md) "Title" = some rec.title ∧
    (newKeywordsOf rec.breadcrumbs ≠ [] →
      mdGet (buildNewMetadata rec md) "Keywords_txt" = some (newKeywordsOf rec.breadcrumbs)) ∧
    (newKeywordsOf rec.breadcrumbs = [] →
      mdGet (buildNewMetadata rec md) "Keywords_txt" = mdGet md "Keywords_txt") ∧
    (∀ k, k ≠ "Title" → k ≠ "Keywords_txt" →
      mdGet (buildNewMetadata rec md) k = mdGet md k) ∧
    (∀ tok post nm,
      (processFile (some rec) (some md) tok post = .ok (.editAccepted nm) ∨
       processFile (some rec) (some md) tok post = .ok (.editRejected nm)) →
      nm = buildNewMetadata rec md) := by
  have hTK : ("Title" : String) ≠ "Keywords_txt" := by decide
  have hKT : ("Keywords_txt" : String) ≠ "Title" := by decide
  have hlast : ∀ (tok : Except JsError JStr) (post : Except Nat Nat) (nm : Metadata),
      (processFile (some rec) (some md) tok post = .ok (.editAccepted nm) ∨
       processFile (some rec) (some md) tok post = .ok (.editRejected nm)) →
      nm = buildNewMetadata rec md := by
    intro tok post nm h
    rcases processFile_cases rec md tok post with hc | hc | hc <;> rw [hc] at h
    · rcases h with h | h <;> simp at h
    · rcases h with h | h <;> simp at h
    · exact processFileEdit_metadata rec md tok post nm h
  cases hk : (newKeywordsOf rec.breadcrumbs).isEmpty with
  | true =>
    have hke : newKeywordsOf rec.breadcrumbs = [] := List.isEmpty_iff.mp hk
    refine ⟨?_, fun hne => absurd hke hne, fun _ => ?_, fun k hkT hkK => ?_, hlast⟩
    · simp [buildNewMetadata, hk, mdGet_set_same]
    · simp [buildNewMetadata, hk, mdGet_set_other md "Title" "Keywords_txt" rec.title hKT]
    · simp [buildNewMetadata, hk, mdGet_set_other md "Title" k rec.title hkT]
  | false =>
    have hkne : newKeywordsOf rec.breadcrumbs ≠ [] := by
      intro hc; rw [hc] at hk; simp at hk
    refine ⟨?_, fun _ => ?_, fun hke => absurd hke hkne, fun k hkT hkK => ?_, hlast⟩
    · simp [buildNewMetadata, hk, mdGet_set_other _ "Keywords_txt" "Title" _ hTK,
        mdGet_set_same]
    · simp [buildNewMetadata, hk, mdGet_set_same]
    · simp [buildNewMetadata, hk, mdGet_set_other _ "Keywords_txt" k _ hkK,
        mdGet_set_other md "Title" k rec.title hkT]

/-- Witness for C9 at the scenario inputs. -/
theorem buildNewMetadata_frame_witness :
    mdGet (buildNewMetadata recA remoteA) "Keywords_txt" = some (newKeywordsOf recA.breadcrumbs) :=
  (buildNewMetadata_frame recA remoteA).2.1 (by decide)

/-- C2 counterexample: a batch of five records over a benign environment
(search always hits, token available, every POST accepted) does not
process the remaining records after a failure, and returns no counts: it
aborts at the very first record with a TypeError (the call passes the
property `fileData` while `processFile` destructures `dataObject`) after
exactly one `processFile` call. -/
theorem updateCloudMetadata_abort_counterexample :
    updateCloudMetadata envOk fiveIndex fiveFiles = (.error TYPE_ERROR, 1) ∧
    fiveFiles.length = 5 := by decide

/-- C2 amended: `updateCloudMetadata` has no per-record error handling and
returns `null` rather than counts: an empty batch completes returning
`null`, and any non-empty batch aborts at the first record — the thrown
`TypeError` (from the `fileData` / `dataObject` parameter mismatch)
propagates and ends the run after a single `processFile` call. -/
theorem updateCloudMetadata_aborts_on_first_record (env : OpsEnv) (index : List FileRecord)
    (file : JStr) (rest : List JStr) :
    updateCloudMetadata env index (file :: rest) = (.error TYPE_ERROR, 1) ∧
    updateCloudMetadata env index [] = (.ok none, 0) :=
  ⟨rfl, rfl⟩


